import Mathlib

/-!
Verification of the PPO-driven fuzzing controller.

Shallow embedding of the reinforcement-learning core of the repository
(src/ppo_agent.py, src/feedback_analyzer.py, src/afl_wrapper.py,
src/experiment_runner.py).  Numeric values are modelled by real numbers.
Python dictionaries holding telemetry are modelled by records of optional
fields (a missing key is none); a mandatory dictionary lookup that would
raise KeyError is modelled by Option.bind, so a raising call returns none.
The torch-specific parts (the per-epoch gradient step inside
PPOAgent.update, and the categorical sampling inside select_action) are
the external numeric-library boundary; they are taken as function
parameters, while everything around them (guards, buffer handling,
returns, advantage standardization, loss averaging, the control-loop
tick) is embedded concretely from the source.
-/

noncomputable section

namespace PPOFuzz

/-- Python-dict view of a metrics dictionary: each field is optional,
none modelling an absent key.  Only the five keys read by the agent
(get_state_vector and compute_reward) are represented. -/
structure MetricsDict where
  coverage_rate : Option ℝ
  crash_count : Option ℝ
  exec_speed : Option ℝ
  queue_size : Option ℝ
  unique_paths : Option ℝ

/-- The reward_weights configuration record (ppo config). -/
structure RewardWeights where
  coverage_increase : ℝ
  unique_crash : ℝ
  execution_speed : ℝ
  path_diversity : ℝ

/-- PPOAgent.get_state_vector (ppo_agent.py lines 87-96): each field is
read with dict.get defaulting to 0, then normalized by the fixed
constants 1, 100, 1000, 1000, 10000. -/
def get_state_vector (m : MetricsDict) : List ℝ :=
  [m.coverage_rate.getD 0,
   m.crash_count.getD 0 / 100,
   m.exec_speed.getD 0 / 1000,
   m.queue_size.getD 0 / 1000,
   m.unique_paths.getD 0 / 10000]

/-- PPOAgent.compute_reward (ppo_agent.py lines 112-132): fields of curr
are mandatory lookups (KeyError, modelled by Option.bind, in source
order), fields of prev are read with dict.get defaulting to 0. -/
def compute_reward (w : RewardWeights) (prev curr : MetricsDict) : Option ℝ :=
  curr.coverage_rate.bind fun c_cov =>
  curr.crash_count.bind fun c_crash =>
  curr.exec_speed.bind fun c_speed =>
  curr.unique_paths.map fun c_paths =>
    let coverage_reward := w.coverage_increase * (c_cov - prev.coverage_rate.getD 0)
    let crash_reward := w.unique_crash * (c_crash - prev.crash_count.getD 0)
    let speed_reward := w.execution_speed * (c_speed / 1000)
    let path_reward := w.path_diversity * ((c_paths - prev.unique_paths.getD 0) / 100)
    coverage_reward + crash_reward + speed_reward + path_reward

open Classical in
/-- FeedbackAnalyzer._calculate_reward (feedback_analyzer.py lines
41-73): the diagnostic reward with fixed weights, all lookups mandatory
on both arguments, with the additive stagnation penalty of 0.1 when both
the coverage delta and the path delta are exactly zero. -/
def calculate_reward (prev curr : MetricsDict) : Option ℝ :=
  curr.coverage_rate.bind fun c_cov =>
  prev.coverage_rate.bind fun p_cov =>
  curr.crash_count.bind fun c_crash =>
  prev.crash_count.bind fun p_crash =>
  curr.exec_speed.bind fun c_speed =>
  curr.unique_paths.bind fun c_paths =>
  prev.unique_paths.map fun p_paths =>
    let coverage_delta := c_cov - p_cov
    let path_delta := c_paths - p_paths
    let base := coverage_delta * 1 + (c_crash - p_crash) * 10
      + (c_speed / 100) * (1 / 10) + (path_delta / 100) * (1 / 2)
    if coverage_delta = 0 ∧ path_delta = 0 then base - 1 / 10 else base

/-- PPOAgent._compute_returns (ppo_agent.py lines 192-202): a fold over
the reversed rewards zipped with the reversed dones, carrying the
accumulator R and prepending each new R to the returns list. -/
def compute_returns (gamma : ℝ) (rewards : List ℝ) (dones : List Bool) : List ℝ :=
  ((rewards.reverse.zip dones.reverse).foldl
    (fun acc rd =>
      let R0 : ℝ := if rd.2 then 0 else acc.1
      let R := rd.1 + gamma * R0
      (R, R :: acc.2))
    ((0 : ℝ), ([] : List ℝ))).2

/-- Modelled from the spec (section 4.5 step 2, refinement companion for
the returns computation): returns[i] = rewards[i] + gamma * (0 if
dones[i] else returns[i+1]), with returns[N] read as 0. -/
def returns_spec (gamma : ℝ) : List ℝ → List Bool → List ℝ
  | r :: rs, d :: ds =>
    let rest := returns_spec gamma rs ds
    (r + gamma * (if d then 0 else rest.headD 0)) :: rest
  | _, _ => []

/-- Arithmetic mean of a list, as tensor.mean(). -/
def mean (l : List ℝ) : ℝ := l.sum / l.length

/-- Unbiased sample variance, as used by tensor.std() (Bessel correction,
denominator n - 1).  Divergence disclosed: on a singleton list torch.std
has zero degrees of freedom and yields NaN, while this real-valued model
divides by zero and yields 0; theorems about standardization are
therefore stated only for lists of more than one element. -/
def varB (l : List ℝ) : ℝ :=
  ((l.map fun x => (x - mean l) ^ 2).sum) / ((l.length : ℝ) - 1)

/-- Sample standard deviation, as tensor.std(). -/
def std (l : List ℝ) : ℝ := Real.sqrt (varB l)

/-- The constant 1e-8 added to the standard deviation before dividing
(ppo_agent.py line 158). -/
def eps : ℝ := 1 / 100000000

/-- Advantage standardization (ppo_agent.py line 158):
(a - a.mean()) / (a.std() + 1e-8), elementwise. -/
def standardize (l : List ℝ) : List ℝ :=
  l.map fun x => (x - mean l) / (std l + eps)

/-- The experience buffer of PPOAgent (ppo_agent.py lines 78-85): six
parallel lists. -/
structure Buffer where
  states : List (List ℝ)
  actions : List ℕ
  rewards : List ℝ
  log_probs : List ℝ
  values : List ℝ
  dones : List Bool

/-- The buffer as built by PPOAgent.__init__: six empty lists. -/
def Buffer.init : Buffer := ⟨[], [], [], [], [], []⟩

/-- PPOAgent.store_transition (ppo_agent.py lines 134-141): append one
element to each of the six lists. -/
def store_transition (b : Buffer) (state : List ℝ) (action : ℕ)
    (reward log_prob value : ℝ) (done : Bool) : Buffer :=
  { states := b.states ++ [state]
    actions := b.actions ++ [action]
    rewards := b.rewards ++ [reward]
    log_probs := b.log_probs ++ [log_prob]
    values := b.values ++ [value]
    dones := b.dones ++ [done] }

/-- PPOAgent.clear_buffer (ppo_agent.py lines 204-207): every key is
reset to the empty list. -/
def clear_buffer (_b : Buffer) : Buffer := ⟨[], [], [], [], [], []⟩

/-- The data handed to each training epoch by PPOAgent.update: states,
actions and old log probabilities from the buffer, plus the computed
standardized advantages and returns. -/
structure Batch where
  states : List (List ℝ)
  actions : List ℕ
  old_log_probs : List ℝ
  advantages : List ℝ
  returns : List ℝ

/-- The configuration fields of the agent and the driving loop that the
embedded code reads (epsilon_clip, entropy_coefficient and learning_rate
are consumed only inside the abstracted gradient step). -/
structure Config where
  gamma : ℝ
  epochs : ℕ
  batch_size : ℕ
  update_interval : ℕ
  reward_weights : RewardWeights

/-- Agent state: the policy parameters (including optimizer state),
abstracted to a type parameter P, and the experience buffer. -/
structure Agent (P : Type) where
  policy : P
  buffer : Buffer

/-- Batch preparation inside PPOAgent.update (ppo_agent.py lines
148-158): discounted returns from rewards and dones, advantages =
returns - values, standardized. -/
def make_batch (cfg : Config) (ag : Agent P) : Batch :=
  let returns := compute_returns cfg.gamma ag.buffer.rewards ag.buffer.dones
  let advantages := standardize (List.zipWith (fun a b => a - b) returns ag.buffer.values)
  ⟨ag.buffer.states, ag.buffer.actions, ag.buffer.log_probs, advantages, returns⟩

/-- The for-loop over epochs in PPOAgent.update (ppo_agent.py lines
160-185): run the gradient step n times sequentially, threading the
policy parameters and accumulating the epoch losses into the running
total. -/
def run_epochs (train : P → Batch → P × ℝ) (batch : Batch) :
    ℕ → P × ℝ → P × ℝ
  | 0, acc => acc
  | n + 1, acc =>
    run_epochs train batch n ((train acc.1 batch).1, acc.2 + (train acc.1 batch).2)

/-- PPOAgent.update (ppo_agent.py lines 143-190).  If the buffer holds
fewer transitions than batch_size, return 0.0 and change nothing.
Otherwise prepare the batch, run the per-epoch gradient step (the torch
part, abstracted as train) for epochs iterations accumulating the
losses, clear the buffer, and return total loss / epochs. -/
def update (cfg : Config) (train : P → Batch → P × ℝ) (ag : Agent P) :
    Agent P × ℝ :=
  if ag.buffer.states.length < cfg.batch_size then (ag, 0)
  else
    let batch := make_batch cfg ag
    let res := run_epochs train batch cfg.epochs (ag.policy, (0 : ℝ))
    ({ policy := res.1, buffer := clear_buffer ag.buffer }, res.2 / (cfg.epochs : ℝ))

/-- The sequence of per-epoch total losses produced by iterating the
gradient step from a given policy on a fixed batch. -/
def per_epoch_losses (train : P → Batch → P × ℝ) (batch : Batch) :
    ℕ → P → List ℝ
  | 0, _ => []
  | n + 1, p => (train p batch).2 :: per_epoch_losses train batch n (train p batch).1

/-- The policy parameters after n gradient steps on a fixed batch. -/
def train_iter (train : P → Batch → P × ℝ) (batch : Batch) : ℕ → P → P
  | 0, p => p
  | n + 1, p => train_iter train batch n (train p batch).1

/-- The final-flush branch of ExperimentRunner.run_ppo_enhanced
(experiment_runner.py lines 154-158): on loop exit, if the buffer is
non-empty, call ppo.update() once and report its loss; otherwise do
nothing. -/
def final_update (cfg : Config) (train : P → Batch → P × ℝ) (ag : Agent P) :
    Agent P × Option ℝ :=
  if 0 < ag.buffer.states.length then
    ((update cfg train ag).1, some (update cfg train ag).2)
  else (ag, none)

/-- The metrics dictionary returned by AFLWrapper.get_metrics: all seven
keys always present. -/
structure Metrics where
  coverage_rate : ℝ
  crash_count : ℝ
  exec_speed : ℝ
  queue_size : ℝ
  unique_paths : ℝ
  pending_paths : ℝ
  runtime : ℝ

/-- View a full metrics record as a dictionary: every key present. -/
def Metrics.toDict (m : Metrics) : MetricsDict :=
  ⟨some m.coverage_rate, some m.crash_count, some m.exec_speed,
   some m.queue_size, some m.unique_paths⟩

/-- The numeric fields parsed out of the AFL++ stats file by
AFLWrapper.get_metrics (afl_wrapper.py lines 134-143).  Reading and
string-parsing the on-disk stats file is the external I/O boundary
(spec section 1); the parsed values are taken as input here. -/
structure StatsFields where
  bitmap_cvg : ℝ
  unique_crashes : ℝ
  execs_per_sec : ℝ
  paths_total : ℝ
  paths_found : ℝ
  pending_total : ℝ

/-- AFLWrapper.get_metrics (afl_wrapper.py lines 114-145): none models
get_stats returning the empty dict (missing or unreadable stats file),
in which case a dictionary of zeros is returned (runtime included);
otherwise the parsed fields are packaged with the runtime. -/
def get_metrics : Option StatsFields → ℝ → Metrics
  | none, _ => ⟨0, 0, 0, 0, 0, 0, 0⟩
  | some f, rt =>
    ⟨f.bitmap_cvg, f.unique_crashes, f.execs_per_sec, f.paths_total,
     f.paths_found, f.pending_total, rt⟩

/-- The loop-carried state of ExperimentRunner.run_ppo_enhanced: the
agent, the previous metrics (None before the first tick), and the
update counter. -/
structure LoopState (P : Type) where
  agent : Agent P
  prev : Option Metrics
  counter : ℕ

/-- One iteration of the while body of ExperimentRunner.run_ppo_enhanced
(experiment_runner.py lines 111-143).  The telemetry read result is the
statsRead input (none = stats file missing or unreadable); done is the
elapsed-time flag of line 133; categorical action sampling
(select_action) is abstracted as select, returning (action, log_prob,
value).  On the first tick only prev is set; afterwards the state is
encoded, an action selected, the reward computed, the transition stored,
and the periodic update triggered when the counter reaches
update_interval. -/
def tick (cfg : Config) (train : P → Batch → P × ℝ)
    (select : List ℝ → ℕ × ℝ × ℝ) (statsRead : Option StatsFields)
    (runtime : ℝ) (done : Bool) (ls : LoopState P) : LoopState P :=
  let curr := get_metrics statsRead runtime
  match ls.prev with
  | none => { ls with prev := some curr }
  | some prev =>
    let st := get_state_vector curr.toDict
    let alv := select st
    let reward := (compute_reward cfg.reward_weights prev.toDict curr.toDict).getD 0
    let ag : Agent P :=
      { ls.agent with
        buffer := store_transition ls.agent.buffer st alv.1 reward alv.2.1 alv.2.2 done }
    let counter := ls.counter + 1
    if cfg.update_interval ≤ counter then
      { agent := (update cfg train ag).1, prev := some curr, counter := 0 }
    else
      { agent := ag, prev := some curr, counter := counter }

/-- The invariant of the six parallel buffer lists: all have the length
of the states list. -/
def Buffer.wf (b : Buffer) : Prop :=
  b.actions.length = b.states.length ∧ b.rewards.length = b.states.length
    ∧ b.log_probs.length = b.states.length ∧ b.values.length = b.states.length
    ∧ b.dones.length = b.states.length

/-- Concrete weight configuration used by witnesses. -/
def w0 : RewardWeights := ⟨1, 1, 1, 1⟩

/-- Concrete configuration used by witnesses: gamma 1/2, 2 epochs, batch
size 2, update interval 10. -/
def cfg0 : Config := ⟨1 / 2, 2, 2, 10, w0⟩

/-- Trivial gradient step used by witnesses: parameters unchanged, loss 0. -/
def train0 : Unit → Batch → Unit × ℝ := fun _ _ => ((), 0)

/-- Agent with an empty buffer, used by witnesses. -/
def ag0 : Agent Unit := ⟨(), Buffer.init⟩

/-- A buffer holding exactly one transition. -/
def buf1 : Buffer := store_transition Buffer.init [0, 0, 0, 0, 0] 0 0 0 0 true

/-- Agent holding exactly one transition. -/
def ag1 : Agent Unit := ⟨(), buf1⟩

/-- A buffer holding exactly two transitions. -/
def buf2 : Buffer := store_transition buf1 [0, 0, 0, 0, 0] 1 1 0 0 false

/-- Agent holding exactly two transitions. -/
def ag2 : Agent Unit := ⟨(), buf2⟩

theorem zip_reverse_of_length_eq {α β : Type} :
    ∀ (l1 : List α) (l2 : List β), l1.length = l2.length →
      l1.reverse.zip l2.reverse = (l1.zip l2).reverse := by
  intro l1
  induction l1 with
  | nil => intro l2 h; simp
  | cons a t ih =>
    intro l2 h
    cases l2 with
    | nil => simp at h
    | cons b t2 =>
      simp only [List.length_cons, Nat.succ.injEq] at h
      simp only [List.reverse_cons, List.zip_cons_cons]
      rw [List.zip_append (by simp [h]), ih t2 h]
      simp

theorem foldr_returns (gamma : ℝ) :
    ∀ (rws : List ℝ) (dns : List Bool), rws.length = dns.length →
      (rws.zip dns).foldr
        (fun rd acc =>
          let R0 : ℝ := if rd.2 then 0 else acc.1
          let R := rd.1 + gamma * R0
          (R, R :: acc.2))
        ((0 : ℝ), ([] : List ℝ))
      = ((returns_spec gamma rws dns).headD 0, returns_spec gamma rws dns) := by
  intro rws
  induction rws with
  | nil => intro dns h; cases dns <;> simp_all [returns_spec]
  | cons r rs ih =>
    intro dns h
    cases dns with
    | nil => simp at h
    | cons d ds =>
      simp only [List.length_cons, Nat.succ.injEq] at h
      simp only [List.zip_cons_cons, List.foldr_cons, ih ds h, returns_spec]
      simp

theorem compute_returns_eq_spec (gamma : ℝ) (rewards : List ℝ) (dones : List Bool)
    (h : rewards.length = dones.length) :
    compute_returns gamma rewards dones = returns_spec gamma rewards dones := by
  unfold compute_returns
  rw [zip_reverse_of_length_eq rewards dones h, List.foldl_reverse,
    foldr_returns gamma rewards dones h]

theorem run_epochs_eq {P : Type} (train : P → Batch → P × ℝ) (batch : Batch) :
    ∀ (n : ℕ) (p : P) (acc : ℝ),
      run_epochs train batch n (p, acc)
        = (train_iter train batch n p, acc + (per_epoch_losses train batch n p).sum) := by
  intro n
  induction n with
  | zero => intro p acc; simp [run_epochs, train_iter, per_epoch_losses]
  | succ k ih =>
    intro p acc
    simp only [run_epochs, train_iter, per_epoch_losses, ih, List.sum_cons]
    ring_nf

/-- C3: for fully populated snapshots, the training reward of
PPOAgent.compute_reward is exactly the four-term weighted sum, with no
stagnation penalty added (in particular the statement covers zero
coverage and path deltas); the additive 0.1 stagnation penalty appears
only in the diagnostic variant FeedbackAnalyzer._calculate_reward, shown
here at zero deltas. -/
theorem c3_training_reward_formula (w : RewardWeights)
    (pc pk pe pq pu cc ck ce cq cu : ℝ) :
    compute_reward w ⟨some pc, some pk, some pe, some pq, some pu⟩
        ⟨some cc, some ck, some ce, some cq, some cu⟩
      = some (w.coverage_increase * (cc - pc) + w.unique_crash * (ck - pk)
          + w.execution_speed * (ce / 1000) + w.path_diversity * ((cu - pu) / 100))
    ∧ calculate_reward ⟨some pc, some pk, some pe, some pq, some pu⟩
        ⟨some pc, some ck, some ce, some cq, some pu⟩
      = some ((ck - pk) * 10 + (ce / 100) * (1 / 10) - 1 / 10) := by
  constructor
  · simp [compute_reward]
  · simp [calculate_reward]

/-- C4: compute_returns realizes the backward recursion of the spec
(returns_spec) for every pair of equal-length reward and done lists and
every discount, and on rewards [1,1,1], gamma 1/2, dones [false, false,
true] it yields [7/4, 3/2, 1]. -/
theorem c4_returns_backward_recursion :
    (∀ (gamma : ℝ) (rewards : List ℝ) (dones : List Bool),
        rewards.length = dones.length →
        compute_returns gamma rewards dones = returns_spec gamma rewards dones)
    ∧ compute_returns (1 / 2) [1, 1, 1] [false, false, true] = [7 / 4, 3 / 2, 1] := by
  constructor
  · exact compute_returns_eq_spec
  · norm_num [compute_returns, List.zip, List.zipWith, List.foldl]

theorem c4_witness :
    ([1, 1, 1] : List ℝ).length = ([false, false, true] : List Bool).length
    ∧ compute_returns (1 / 2) [1, 1, 1] [false, false, true]
        = returns_spec (1 / 2) [1, 1, 1] [false, false, true] :=
  ⟨by simp, c4_returns_backward_recursion.1 (1 / 2) [1, 1, 1] [false, false, true] (by simp)⟩

/-- C5 counterexample: a snapshot with a negative coverage_rate is not
clamped: the encoder emits the negative value unchanged, so the claim
that the encoder never produces a negative component is false. -/
theorem c5_counterexample :
    get_state_vector ⟨some (-1), some 0, some 0, some 0, some 0⟩ = [-1, 0, 0, 0, 0]
    ∧ ((-1 : ℝ) < 0) := by
  constructor
  · simp [get_state_vector]
  · norm_num

/-- C5 amended: the encoder is total, always returns the 5-component
normalized vector with missing fields defaulting to 0, and its
components are nonnegative whenever the (defaulted) input fields are
nonnegative; negative inputs are passed through unclamped, not clamped
to 0. -/
theorem c5_encoder_total_unclamped (m : MetricsDict) :
    (get_state_vector m).length = 5
    ∧ ((0 ≤ m.coverage_rate.getD 0 ∧ 0 ≤ m.crash_count.getD 0
        ∧ 0 ≤ m.exec_speed.getD 0 ∧ 0 ≤ m.queue_size.getD 0
        ∧ 0 ≤ m.unique_paths.getD 0) →
        ∀ x ∈ get_state_vector m, 0 ≤ x) := by
  refine ⟨rfl, ?_⟩
  rintro ⟨h1, h2, h3, h4, h5⟩ x hx
  simp only [get_state_vector, List.mem_cons, List.not_mem_nil, or_false] at hx
  rcases hx with h | h | h | h | h <;> subst h
  · exact h1
  · exact div_nonneg h2 (by norm_num)
  · exact div_nonneg h3 (by norm_num)
  · exact div_nonneg h4 (by norm_num)
  · exact div_nonneg h5 (by norm_num)

theorem c5_witness :
    (get_state_vector ⟨some 0, some 100, some 1000, some 1000, some 10000⟩).length = 5
    ∧ (0 : ℝ) ≤ 1 :=
  ⟨(c5_encoder_total_unclamped ⟨some 0, some 100, some 1000, some 1000, some 10000⟩).1,
   (c5_encoder_total_unclamped ⟨some 0, some 100, some 1000, some 1000, some 10000⟩).2
     (by norm_num) 1 (by norm_num [get_state_vector])⟩

/-- C6: when the buffer holds strictly fewer transitions than
batch_size, update returns 0.0 and leaves the whole agent state (buffer
and policy parameters) unchanged, and the call is idempotent. -/
theorem c6_update_below_batch_noop {P : Type} (cfg : Config)
    (train : P → Batch → P × ℝ) (ag : Agent P)
    (h : ag.buffer.states.length < cfg.batch_size) :
    update cfg train ag = (ag, 0)
    ∧ update cfg train (update cfg train ag).1 = update cfg train ag := by
  have h1 : update cfg train ag = (ag, 0) := by simp [update, h]
  refine ⟨h1, ?_⟩
  rw [h1]
  exact h1

theorem c6_witness :
    ag1.buffer.states.length < cfg0.batch_size ∧ update cfg0 train0 ag1 = (ag1, 0) :=
  ⟨by norm_num [ag1, buf1, store_transition, Buffer.init, cfg0],
   (c6_update_below_batch_noop cfg0 train0 ag1
     (by norm_num [ag1, buf1, store_transition, Buffer.init, cfg0])).1⟩

/-- C7: when the buffer holds at least batch_size transitions (and the
configured number of epochs is positive, as required for the Python
division), update empties the buffer and returns the arithmetic mean of
the per-epoch total losses over the epochs iterations. -/
theorem c7_update_flushes_and_averages {P : Type} (cfg : Config)
    (train : P → Batch → P × ℝ) (ag : Agent P)
    (h : cfg.batch_size ≤ ag.buffer.states.length) (_hep : 0 < cfg.epochs) :
    (update cfg train ag).1.buffer = Buffer.init
    ∧ (update cfg train ag).2
      = (per_epoch_losses train (make_batch cfg ag) cfg.epochs ag.policy).sum
          / (cfg.epochs : ℝ) := by
  have hn : ¬ ag.buffer.states.length < cfg.batch_size := not_lt.mpr h
  constructor
  · simp [update, hn, clear_buffer, Buffer.init]
  · simp [update, hn, run_epochs_eq]

theorem c7_witness :
    cfg0.batch_size ≤ ag2.buffer.states.length ∧ 0 < cfg0.epochs
    ∧ ((update cfg0 train0 ag2).1.buffer = Buffer.init
      ∧ (update cfg0 train0 ag2).2
        = (per_epoch_losses train0 (make_batch cfg0 ag2) cfg0.epochs ag2.policy).sum
            / (cfg0.epochs : ℝ)) :=
  ⟨by norm_num [ag2, buf2, buf1, store_transition, Buffer.init, cfg0],
   by norm_num [cfg0],
   c7_update_flushes_and_averages cfg0 train0 ag2
     (by norm_num [ag2, buf2, buf1, store_transition, Buffer.init, cfg0])
     (by norm_num [cfg0])⟩

/-- C9: the equal-length invariant of the six parallel buffer lists
holds for the initial buffer, is preserved by store_transition (which
appends one element to each list), holds after clear_buffer (which
empties all six), and is preserved by update, which moreover either
leaves the buffer exactly unchanged or clears all six lists. -/
theorem c9_buffer_parallel_lengths {P : Type} (cfg : Config)
    (train : P → Batch → P × ℝ) :
    Buffer.init.wf
    ∧ (∀ (b : Buffer) (s : List ℝ) (a : ℕ) (r lp v : ℝ) (d : Bool),
        b.wf → (store_transition b s a r lp v d).wf)
    ∧ (∀ b : Buffer, (clear_buffer b).wf)
    ∧ (∀ ag : Agent P, ag.buffer.wf →
        ((update cfg train ag).1.buffer.wf
          ∧ ((update cfg train ag).1.buffer = ag.buffer
            ∨ (update cfg train ag).1.buffer = Buffer.init))) := by
  refine ⟨by simp [Buffer.wf, Buffer.init], ?_, ?_, ?_⟩
  · rintro b s a r lp v d ⟨h1, h2, h3, h4, h5⟩
    simp [store_transition, Buffer.wf, h1, h2, h3, h4, h5]
  · intro b; simp [clear_buffer, Buffer.wf]
  · intro ag hwf
    by_cases hlt : ag.buffer.states.length < cfg.batch_size
    · have : update cfg train ag = (ag, 0) := by simp [update, hlt]
      rw [this]
      exact ⟨hwf, Or.inl rfl⟩
    · have : (update cfg train ag).1.buffer = Buffer.init := by
        simp [update, hlt, clear_buffer, Buffer.init]
      rw [this]
      exact ⟨by simp [Buffer.wf, Buffer.init], Or.inr rfl⟩

theorem c9_witness :
    (store_transition Buffer.init [0] 0 0 0 0 true).wf
    ∧ (update cfg0 train0 ag1).1.buffer.wf :=
  ⟨(c9_buffer_parallel_lengths cfg0 train0).2.1 Buffer.init [0] 0 0 0 0 true
     (c9_buffer_parallel_lengths cfg0 train0).1,
   ((c9_buffer_parallel_lengths cfg0 train0).2.2.2 ag1
     (by simp [ag1, buf1, store_transition, Buffer.init, Buffer.wf])).1⟩

/-- C10: compute_reward is total in its first argument (any prev
dictionary, with missing fields read as 0) once curr carries the four
keys coverage_rate, crash_count, exec_speed and unique_paths (queue_size
is irrelevant), and it returns no value (the Python call raises
KeyError) whenever curr is missing any of those four keys. -/
theorem c10_compute_reward_partiality :
    (∀ (w : RewardWeights) (prev : MetricsDict) (cc ck ce cu : ℝ) (cq : Option ℝ),
        (compute_reward w prev ⟨some cc, some ck, some ce, cq, some cu⟩).isSome)
    ∧ (∀ (w : RewardWeights) (prev curr : MetricsDict),
        curr.coverage_rate = none ∨ curr.crash_count = none
          ∨ curr.exec_speed = none ∨ curr.unique_paths = none →
        compute_reward w prev curr = none) := by
  constructor
  · intro w prev cc ck ce cu cq
    simp [compute_reward]
  · intro w prev curr h
    rcases curr with ⟨o1, o2, o3, o4, o5⟩
    rcases h with h | h | h | h
    · subst h; simp [compute_reward]
    · subst h; cases o1 <;> simp [compute_reward]
    · subst h; cases o1 <;> cases o2 <;> simp [compute_reward]
    · subst h; cases o1 <;> cases o2 <;> cases o3 <;> simp [compute_reward]

theorem c10_witness :
    (compute_reward w0 ⟨none, none, none, none, none⟩
      ⟨some 0, some 0, some 0, none, some 0⟩).isSome
    ∧ compute_reward w0 ⟨some 0, some 0, some 0, some 0, some 0⟩
        ⟨none, some 0, some 0, some 0, some 0⟩ = none :=
  ⟨c10_compute_reward_partiality.1 w0 ⟨none, none, none, none, none⟩ 0 0 0 0 none,
   c10_compute_reward_partiality.2 w0 ⟨some 0, some 0, some 0, some 0, some 0⟩
     ⟨none, some 0, some 0, some 0, some 0⟩ (Or.inl rfl)⟩

theorem sum_map_div (l : List ℝ) (g : ℝ → ℝ) (c : ℝ) :
    (l.map fun x => g x / c).sum = (l.map g).sum / c := by
  induction l with
  | nil => simp
  | cons a t ih =>
    simp only [List.map_cons, List.sum_cons, ih]
    ring

theorem sum_map_center (l : List ℝ) (m : ℝ) :
    (l.map fun x => x - m).sum = l.sum - (l.length : ℝ) * m := by
  induction l with
  | nil => simp
  | cons a t ih =>
    simp only [List.map_cons, List.sum_cons, ih, List.length_cons]
    push_cast
    ring

theorem length_ne_zero_real (l : List ℝ) (hl : l ≠ []) : (l.length : ℝ) ≠ 0 := by
  have : l.length ≠ 0 := fun h => hl (List.length_eq_zero.mp h)
  exact_mod_cast this

theorem mean_standardize (l : List ℝ) (hl : l ≠ []) : mean (standardize l) = 0 := by
  have hn : (l.length : ℝ) ≠ 0 := length_ne_zero_real l hl
  have key : (l.map fun x => x - mean l).sum = 0 := by
    rw [sum_map_center]
    unfold mean
    field_simp
  have hsum : (standardize l).sum = 0 := by
    unfold standardize
    rw [sum_map_div l (fun x => x - mean l) (std l + eps), key, zero_div]
  unfold mean
  rw [hsum, zero_div]

theorem varB_standardize (l : List ℝ) (hl : l ≠ []) :
    varB (standardize l) = varB l / (std l + eps) ^ 2 := by
  have hmean := mean_standardize l hl
  unfold varB
  simp only [hmean, sub_zero]
  simp only [standardize, List.map_map, List.length_map]
  have hcomp : ((fun x : ℝ => x ^ 2) ∘ fun x => (x - mean l) / (std l + eps))
      = fun x => (x - mean l) ^ 2 / (std l + eps) ^ 2 := by
    funext x
    simp only [Function.comp_apply, div_pow]
  rw [hcomp, sum_map_div l (fun x => (x - mean l) ^ 2) ((std l + eps) ^ 2),
    div_right_comm]

theorem varB_nonneg (l : List ℝ) (hl : l ≠ []) : 0 ≤ varB l := by
  unfold varB
  apply div_nonneg
  · apply List.sum_nonneg
    intro x hx
    simp only [List.mem_map] at hx
    obtain ⟨y, _, rfl⟩ := hx
    positivity
  · have h1 : 0 < l.length := List.length_pos.mpr hl
    have h2 : (1 : ℝ) ≤ (l.length : ℝ) := by exact_mod_cast h1
    linarith

theorem std_denom_pos (l : List ℝ) : 0 < std l + eps := by
  have h1 : 0 ≤ std l := Real.sqrt_nonneg _
  have h2 : (0 : ℝ) < eps := by norm_num [eps]
  linarith

theorem std_standardize (l : List ℝ) (hl : l ≠ []) :
    std (standardize l) = std l / (std l + eps) := by
  show Real.sqrt (varB (standardize l)) = std l / (std l + eps)
  rw [varB_standardize l hl, Real.sqrt_div (varB_nonneg l hl),
    Real.sqrt_sq (le_of_lt (std_denom_pos l))]
  rfl

/-- C8 counterexample: on a buffer where all raw advantages are equal
(here [5, 5]), the raw standard deviation is 0, so standardization
divides the zero deviations by eps and returns the all-zero sequence,
whose standard deviation is 0 — not approximately 1 as claimed. -/
theorem c8_counterexample :
    standardize [5, 5] = [0, 0] ∧ std (standardize [5, 5]) = 0 := by
  have h1 : standardize [5, 5] = [0, 0] := by
    norm_num [standardize, mean]
  refine ⟨h1, ?_⟩
  rw [h1]
  norm_num [std, varB, mean, Real.sqrt_zero]

/-- C8 amended: for every advantage sequence of more than one element
(the domain of the claim; on a singleton torch.std is NaN, see varB),
the standardized sequence has mean exactly 0, and its standard deviation
equals sigma / (sigma + eps) where sigma is the raw standard deviation —
close to 1 when sigma is large relative to eps, but equal to 0 (not 1)
when all raw advantages are equal. -/
theorem c8_standardize_mean_zero_std_ratio (l : List ℝ) (hl : 1 < l.length) :
    mean (standardize l) = 0 ∧ std (standardize l) = std l / (std l + eps) :=
  have hne : l ≠ [] := by
    intro h
    rw [h] at hl
    exact absurd hl (by simp)
  ⟨mean_standardize l hne, std_standardize l hne⟩

theorem c8_witness :
    1 < ([0, 1] : List ℝ).length
    ∧ (mean (standardize [0, 1]) = 0
      ∧ std (standardize [0, 1]) = std [0, 1] / (std [0, 1] + eps)) :=
  ⟨by simp, c8_standardize_mean_zero_std_ratio [0, 1] (by simp)⟩

/-- C1: behavior of the final-flush branch of run_ppo_enhanced when the
loop stops with a non-empty buffer smaller than batch_size: the inner
batch-size guard of update fires, so the flush call returns loss 0.0 and
leaves the agent (buffer included) exactly unchanged — the pending
transitions are NOT consumed and the buffer is NOT emptied, contrary to
the claim and to the evident intent of the non-empty-buffer guard. -/
theorem c1_final_update_below_batch_discards {P : Type} (cfg : Config)
    (train : P → Batch → P × ℝ) (ag : Agent P)
    (h0 : 0 < ag.buffer.states.length) (h : ag.buffer.states.length < cfg.batch_size) :
    final_update cfg train ag = (ag, some 0) := by
  have hu : update cfg train ag = (ag, 0) := by simp [update, h]
  simp [final_update, h0, hu]

theorem c1_witness :
    0 < ag1.buffer.states.length ∧ ag1.buffer.states.length < cfg0.batch_size
    ∧ final_update cfg0 train0 ag1 = (ag1, some 0) :=
  ⟨by norm_num [ag1, buf1, store_transition, Buffer.init],
   by norm_num [ag1, buf1, store_transition, Buffer.init, cfg0],
   c1_final_update_below_batch_discards cfg0 train0 ag1
     (by norm_num [ag1, buf1, store_transition, Buffer.init])
     (by norm_num [ag1, buf1, store_transition, Buffer.init, cfg0])⟩

/-- Concrete non-zero previous metrics used by the C2 counterexample. -/
def m0 : Metrics := ⟨1, 2, 3, 4, 5, 6, 7⟩

/-- Deterministic action selection used by witnesses. -/
def select0 : List ℝ → ℕ × ℝ × ℝ := fun _ => (0, 0, 0)

/-- Loop state past the first tick (prev held), empty buffer, counter 0. -/
def ls0 : LoopState Unit := ⟨ag0, some m0, 0⟩

/-- C2 counterexample: on a tick whose telemetry read fails (stats file
missing or unreadable), the loop does NOT skip the tick: a transition is
stored (the buffer grows from 0 to 1) and the previously held metrics
are replaced by the all-zero snapshot, contrary to the claim. -/
theorem c2_counterexample :
    (tick cfg0 train0 select0 none 0 false ls0).agent.buffer.states.length = 1
    ∧ (tick cfg0 train0 select0 none 0 false ls0).prev = some (get_metrics none 0)
    ∧ get_metrics none 0 ≠ m0 := by
  refine ⟨?_, ?_, ?_⟩
  · norm_num [tick, ls0, ag0, cfg0, select0, get_metrics, store_transition, Buffer.init]
  · norm_num [tick, ls0, ag0, cfg0, select0, get_metrics, store_transition, Buffer.init]
  · simp only [get_metrics, m0, ne_eq, Metrics.mk.injEq, not_and]
    norm_num

/-- C2 amended: when the telemetry read fails past the first tick, the
tick proceeds instead of being skipped: get_metrics substitutes the
all-zero snapshot, the zero state vector is encoded, an action is
selected, the reward against the zero snapshot is computed, the
transition is stored, and prev is replaced by the zero snapshot (shown
here for ticks that do not trigger the periodic update). -/
theorem c2_tick_on_failed_read_proceeds {P : Type} (cfg : Config)
    (train : P → Batch → P × ℝ) (select : List ℝ → ℕ × ℝ × ℝ)
    (runtime : ℝ) (done : Bool) (ls : LoopState P) (p : Metrics)
    (hprev : ls.prev = some p) (hcnt : ls.counter + 1 < cfg.update_interval) :
    (tick cfg train select none runtime done ls).prev = some (get_metrics none runtime)
    ∧ (tick cfg train select none runtime done ls).agent.buffer.states
        = ls.agent.buffer.states ++ [[0, 0, 0, 0, 0]]
    ∧ (tick cfg train select none runtime done ls).agent.buffer.rewards
        = ls.agent.buffer.rewards
          ++ [(compute_reward cfg.reward_weights p.toDict
                (get_metrics none runtime).toDict).getD 0]
    ∧ (tick cfg train select none runtime done ls).counter = ls.counter + 1 := by
  have hst : get_state_vector (get_metrics none runtime).toDict = [0, 0, 0, 0, 0] := by
    norm_num [get_metrics, Metrics.toDict, get_state_vector]
  have hif : ¬ cfg.update_interval ≤ ls.counter + 1 := not_le.mpr hcnt
  simp only [tick, hprev, hst, hif, if_false, store_transition, ite_false]
  simp

theorem c2_witness :
    (tick cfg0 train0 select0 none 0 false ls0).prev = some (get_metrics none 0)
    ∧ (tick cfg0 train0 select0 none 0 false ls0).agent.buffer.states
        = ls0.agent.buffer.states ++ [[0, 0, 0, 0, 0]]
    ∧ (tick cfg0 train0 select0 none 0 false ls0).agent.buffer.rewards
        = ls0.agent.buffer.rewards
          ++ [(compute_reward cfg0.reward_weights m0.toDict
                (get_metrics none 0).toDict).getD 0]
    ∧ (tick cfg0 train0 select0 none 0 false ls0).counter = ls0.counter + 1 :=
  c2_tick_on_failed_read_proceeds cfg0 train0 select0 0 false ls0 m0 rfl
    (by norm_num [ls0, cfg0])

end PPOFuzz
